import Mathlib

/-!
Verification of the ink-rs concurrency toolkit (the `src/thread` modules).

This file gives a shallow embedding of the primitives the specification talks
about — `AtomicInteger`, `Channel` ("ClosingQueue"), `Latent`
("SingleAssignmentFuture") with its select capability, `EventListener`
("EventNotifier"), `ThreadPool` ("WorkerPool"), `Signal` and `Gate` — and
proves the specified properties about the embedded operations.

Modelling conventions:
* machine `i32` values are `Int` together with an explicit two's-complement
  normalisation `i32wrap` where overflow matters (the atomic counter itself);
  the endpoint/wait counters of a channel are physically bounded by thread
  counts, so they are carried as plain `Int`;
* blocking operations are embedded as decision functions: the result type has
  an explicit constructor for "this call parks on the condition variable"
  (`GetResult.wouldBlock`, `WaitOneResult.blocked`), mirroring the branch of
  the source that reaches `Condvar::wait`;
* a Rust `assert!` failure (panic) is embedded as `Option.none`;
* sequences of calls are replayed by explicit trace interpreters
  (`Channel.run`, `Latent.runOps`, `poolRun`, the select scenario world).
-/

namespace InkRs

/-- Two's-complement normalisation of an `Int` into the signed 32-bit range,
the wrap-around performed by `fetch_add`/`fetch_sub` on `AtomicI32`. -/
def i32wrap (x : Int) : Int := (x + 2 ^ 31) % 2 ^ 32 - 2 ^ 31

/-- Smallest `i32` value. -/
def i32min : Int := -(2 ^ 31)

/-- Largest `i32` value. -/
def i32max : Int := 2 ^ 31 - 1

/-- Model of `AtomicInteger` (src/thread/atomic.rs): a single signed 32-bit
integer with atomic read-modify-write. -/
structure AtomicInteger where
  value : Int
deriving DecidableEq

/-- `AtomicInteger::add`: `fetch_add(value, AcqRel)` — returns the value held
before the addition, stores the wrapped sum. -/
def AtomicInteger.add (a : AtomicInteger) (d : Int) : Int × AtomicInteger :=
  (a.value, ⟨i32wrap (a.value + d)⟩)

/-- `AtomicInteger::sub`: `fetch_sub(value, AcqRel)`. -/
def AtomicInteger.sub (a : AtomicInteger) (d : Int) : Int × AtomicInteger :=
  (a.value, ⟨i32wrap (a.value - d)⟩)

/-- `AtomicInteger::increment`: `fetch_add(1, AcqRel)`. -/
def AtomicInteger.increment (a : AtomicInteger) : Int × AtomicInteger :=
  (a.value, ⟨i32wrap (a.value + 1)⟩)

/-- `AtomicInteger::decrement`: `fetch_sub(1, AcqRel)`. -/
def AtomicInteger.decrement (a : AtomicInteger) : Int × AtomicInteger :=
  (a.value, ⟨i32wrap (a.value - 1)⟩)

/-- `AtomicInteger::get`: `load(Acquire)`. -/
def AtomicInteger.get (a : AtomicInteger) : Int := a.value

/-- Shared state of a `Channel<T>` (src/thread/channel.rs): the item deque and
the `end_count` / `open_count` / `wait_count` counters.  The `instance_counter`
and `_name` fields are diagnostic only and are not modelled. -/
structure ChannelState (T : Type) where
  buffer : List T
  endCount : Int
  openCount : Int
  waitCount : Int
deriving DecidableEq

/-- Outcome of one `Channel::get` call: an item was popped, the queue reported
closed (`None`) without blocking, or the call parks on `put_event`. -/
inductive GetResult (T : Type) where
  | item (x : T)
  | closed
  | wouldBlock
deriving DecidableEq

/-- `Channel::new()` / `Channel::named(..)`: empty buffer, zero counters, then
`open_count.increment()` for the constructing endpoint. -/
def Channel.new {T : Type} : ChannelState T := ⟨[], 0, 1, 0⟩

/-- `Channel::put`: `push_back` the item (and `notify_one`, which has no
state). -/
def Channel.put {T : Type} (s : ChannelState T) (x : T) : ChannelState T :=
  { s with buffer := s.buffer ++ [x] }

/-- The decision `Channel::get` makes under the lock: pop the front item if
the deque is non-empty; else report closed if some endpoint called `end()`;
else report closed if `wait_count + 1 == open_count` (deadlock-avoidance
auto-close); else park on `put_event`. -/
def Channel.get {T : Type} (s : ChannelState T) : GetResult T × ChannelState T :=
  match s.buffer with
  | x :: rest => (GetResult.item x, { s with buffer := rest })
  | [] =>
    if s.endCount > 0 then (GetResult.closed, s)
    else if s.waitCount + 1 = s.openCount then (GetResult.closed, s)
    else (GetResult.wouldBlock, s)

/-- `<Channel as Drop>::drop`: `let open = open_count.decrement() - 1;` then
`notify_all` when `wait_count.get() == open`.  Returns the post-drop state and
whether the waiters were woken. -/
def Channel.dropHandle {T : Type} (s : ChannelState T) : ChannelState T × Bool :=
  let fetched := (AtomicInteger.mk s.openCount).decrement
  let remaining := i32wrap (fetched.1 - 1)
  ({ s with openCount := fetched.2.value }, decide (s.waitCount = remaining))

/-- One call made on a channel endpoint in a replayed trace. -/
inductive ChanAct (T : Type) where
  | put (x : T)
  | get

/-- The items a trace puts, in order. -/
def ChanAct.puts {T : Type} : List (ChanAct T) → List T
  | [] => []
  | ChanAct.put x :: rest => x :: ChanAct.puts rest
  | ChanAct.get :: rest => ChanAct.puts rest

/-- Replay a trace of `put`/`get` calls against a channel, accumulating the
items the `get` calls returned; a `get` that does not pop an item (closed or
parked) leaves the state unchanged, as in the source. -/
def Channel.run {T : Type} (s : ChannelState T) (got : List T) :
    List (ChanAct T) → ChannelState T × List T
  | [] => (s, got)
  | ChanAct.put x :: rest => Channel.run (Channel.put s x) got rest
  | ChanAct.get :: rest =>
    match Channel.get s with
    | (GetResult.item x, s₁) => Channel.run s₁ (got ++ [x]) rest
    | (_, s₁) => Channel.run s₁ got rest

/-- Shared state of a `Latent<T>` (src/thread/latent.rs): the optional value
and the map of registered select events.  An `Event<usize>` is represented by
the `usize` payload it would push into its listener's queue, keyed by the
`listener_id` it was registered under. -/
structure LatentState (T : Type) where
  value : Option T
  events : List (Nat × Nat)
deriving DecidableEq

/-- What a successful `Latent::set` did: the new shared state, whether the
condition variable woke all blocking waiters (`notify_all`), and the payloads
of the select events it fired, in drain order. -/
structure SetEffect (T : Type) where
  state : LatentState T
  notifiedWaiters : Bool
  fired : List Nat
deriving DecidableEq

/-- `HashMap::insert` on the association-list model: replace the entry with
the same key if present, otherwise append. -/
def insertEvent (m : List (Nat × Nat)) (k : Nat) (e : Nat) : List (Nat × Nat) :=
  if m.any (fun p => p.1 == k) then
    m.map (fun p => if p.1 = k then (k, e) else p)
  else m ++ [(k, e)]

/-- `Latent::set`: `assert!(value.is_none())` — a double set panics, embedded
as `none`.  On success the value is stored, all blocking waiters are notified,
and the registration map is drained with every event fired once. -/
def Latent.set {T : Type} (s : LatentState T) (v : T) : Option (SetEffect T) :=
  if (s.value).isSome then none
  else some ⟨⟨some v, []⟩, true, s.events.map (fun p => p.2)⟩

/-- `<Latent as LatentWait>::add_event`: store the event keyed by
`listener_id` when the value is still absent, otherwise fire it immediately.
Returns the new state and the payloads fired right away. -/
def Latent.addEvent {T : Type} (s : LatentState T) (eventTag : Nat) (listenerId : Nat) :
    LatentState T × List Nat :=
  if (s.value).isNone then
    ({ s with events := insertEvent s.events listenerId eventTag }, [])
  else (s, [eventTag])

/-- `<Latent as LatentWait>::remove_event`: discard the registration keyed by
`listener_id`. -/
def Latent.removeEvent {T : Type} (s : LatentState T) (listenerId : Nat) : LatentState T :=
  { s with events := s.events.filter (fun p => p.1 != listenerId) }

/-- One call made on a latent in a replayed trace. -/
inductive LatentOp (T : Type) where
  | setV (v : T)
  | addEv (tag listenerId : Nat)
  | removeEv (listenerId : Nat)

/-- Apply one call; `none` is the panicking double-`set` path. -/
def Latent.applyOp {T : Type} (s : LatentState T) : LatentOp T → Option (LatentState T)
  | LatentOp.setV v => (Latent.set s v).map SetEffect.state
  | LatentOp.addEv t i => some (Latent.addEvent s t i).1
  | LatentOp.removeEv i => some (Latent.removeEvent s i)

/-- Replay a trace of calls against a latent; the replay aborts at a panic. -/
def Latent.runOps {T : Type} (s : LatentState T) : List (LatentOp T) → Option (LatentState T)
  | [] => some s
  | op :: rest =>
    match Latent.applyOp s op with
    | none => none
    | some s₁ => Latent.runOps s₁ rest

/-- Shared state of an `EventListener<T>` (src/thread/event.rs): the queue of
already-fired values and the pending-event counter. -/
structure ListenerState (T : Type) where
  queue : List T
  eventCount : Int
deriving DecidableEq

/-- Outcome of one `SharedData::wait_one` call: a value was popped, `None` was
returned immediately, or the call parks on the `trigger` condition variable. -/
inductive WaitOneResult (T : Type) where
  | value (x : T)
  | nothing
  | blocked
deriving DecidableEq

/-- `SharedData::trigger`: `push_back` the value (and `notify_all`). -/
def SharedData.trigger {T : Type} (s : ListenerState T) (x : T) : ListenerState T :=
  { s with queue := s.queue ++ [x] }

/-- The decision `SharedData::wait_one` makes under the lock: pop the front
value if the queue is non-empty; else return `None` immediately when
`event_count < 1`; else park. -/
def SharedData.waitOne {T : Type} (s : ListenerState T) : WaitOneResult T × ListenerState T :=
  match s.queue with
  | x :: rest => (WaitOneResult.value x, { s with queue := rest })
  | [] =>
    if s.eventCount < 1 then (WaitOneResult.nothing, s)
    else (WaitOneResult.blocked, s)

/-- `EventListener::create_event` / `Event::new`: a fresh single-fire
capability increments the pending-event counter. -/
def Listener.createEvent {T : Type} (s : ListenerState T) : ListenerState T :=
  { s with eventCount := s.eventCount + 1 }

/-- `Event::trigger(self)`: push the payload into the shared queue, then the
consumed `Event` is dropped, which decrements the pending-event counter. -/
def Listener.fireEvent {T : Type} (s : ListenerState T) (x : T) : ListenerState T :=
  { SharedData.trigger s x with eventCount := s.eventCount - 1 }

/-- Fire a batch of event payloads in order (e.g. the events drained by
`Latent::set`). -/
def Listener.fireTags (s : ListenerState Nat) (tags : List Nat) : ListenerState Nat :=
  tags.foldl Listener.fireEvent s

/-- `SharedData::wait_some`, on the paths that never park: drain the whole
queue if non-empty, otherwise fall back to a single `wait_one` and wrap its
result.  `none` marks the path that would park on the condition variable. -/
def SharedData.waitSomeNB {T : Type} (s : ListenerState T) :
    Option (List T × ListenerState T) :=
  match s.queue with
  | _ :: _ => some (s.queue, { s with queue := [] })
  | [] =>
    match SharedData.waitOne s with
    | (WaitOneResult.value x, s₁) => some ([x], s₁)
    | (WaitOneResult.nothing, s₁) => some ([], s₁)
    | (WaitOneResult.blocked, _) => none

/-- `SharedData::wait_all`, on the paths that never park: loop `wait_some`
until it returns empty, accumulating the results.  The fuel bounds the loop;
`none` marks a parked path or fuel exhaustion. -/
def SharedData.waitAllNB {T : Type} : Nat → ListenerState T → Option (List T)
  | 0, _ => none
  | fuel + 1, s =>
    match SharedData.waitSomeNB s with
    | none => none
    | some ([], _) => some []
    | some (vs, s₁) =>
      match SharedData.waitAllNB fuel s₁ with
      | none => none
      | some more => some (vs ++ more)

/-- World state for a `LatentWaiter` select: the list of latents being waited
on and the one fresh listener the waiter created. -/
structure SelectWorld where
  latents : List (LatentState Nat)
  listener : ListenerState Nat
deriving DecidableEq

/-- One registration step of `LatentWaiter::wait_all`:
`latent.add_event(listener.create_event(i), listener_id)` for the latent at
position `i` — an already-resolved latent fires the event synchronously. -/
def SelectWorld.addEventAt (w : SelectWorld) (i : Nat) (listenerId : Nat) : SelectWorld :=
  let l₁ := Listener.createEvent w.listener
  match w.latents[i]? with
  | none => { w with listener := l₁ }
  | some ls =>
    let r := Latent.addEvent ls i listenerId
    { latents := w.latents.set i r.1, listener := Listener.fireTags l₁ r.2 }

/-- The registration loop of `LatentWaiter::wait_all` over all latents in
list order. -/
def SelectWorld.registerAll (w : SelectWorld) (listenerId : Nat) : SelectWorld :=
  (List.range w.latents.length).foldl
    (fun w₁ i => SelectWorld.addEventAt w₁ i listenerId) w

/-- A producer resolving the latent at position `i`: `Latent::set` drains its
registration map and fires each drained event into the shared listener. -/
def SelectWorld.resolve (w : SelectWorld) (i : Nat) (v : Nat) : SelectWorld :=
  match w.latents[i]? with
  | none => w
  | some ls =>
    match Latent.set ls v with
    | none => w
    | some eff =>
      { latents := w.latents.set i eff.state,
        listener := Listener.fireTags w.listener eff.fired }

/-- The select scenario of the specification: three latents, the second
(position 1) already resolved to 27 before registration; after registration
the first resolves to 42, then the third resolves to 39. -/
def selectScenario : SelectWorld :=
  let w₀ : SelectWorld := ⟨[⟨none, []⟩, ⟨some 27, []⟩, ⟨none, []⟩], ⟨[], 0⟩⟩
  let w₁ := SelectWorld.registerAll w₀ 1
  let w₂ := SelectWorld.resolve w₁ 0 42
  SelectWorld.resolve w₂ 2 39

/-- `ThreadPool::fill`: `for _ in 1..thread_count { results.push(put(task.clone())) }`
followed by one unconditional `results.push(put(task))`.  Each list element
stands for one submission and its returned future. -/
def ThreadPool.fill {α : Type} (threadCount : Nat) (task : α) : List α :=
  ((List.range (threadCount - 1)).map (fun _ => task)) ++ [task]

/-- Interleaving state for one worker, the task channel, a user counter each
task increments, and the main thread's `pool.wait()` call
(`none`: not yet called; `some false`: parked on `empty_signal`;
`some true`: returned). -/
structure PoolSim where
  queued : Nat
  holding : Bool
  running : Int
  counter : Nat
  waitOutcome : Option Bool
deriving DecidableEq

/-- One scheduler step of the pool interleaving. -/
inductive PoolAct where
  | putTask
  | dequeueTask
  | finishTask
  | callWait

/-- Semantics of one step, following src/thread/pool.rs:
`putTask` is `ThreadPool::put` enqueueing a task; `dequeueTask` is the worker
popping a task and doing `running_count.increment()`; `finishTask` is the task
body (increment the user counter) then `running_count.decrement()` and, when
the count reaches zero, `empty_signal.signal_all()` which wakes a parked
`wait()`; `callWait` is `ThreadPool::wait`: return immediately when
`running_count.get()` is not positive, else park on the edge-triggered
signal. -/
def poolStep (s : PoolSim) : PoolAct → PoolSim
  | PoolAct.putTask => { s with queued := s.queued + 1 }
  | PoolAct.dequeueTask =>
    if s.holding then s
    else
      match s.queued with
      | 0 => s
      | q + 1 => { s with queued := q, holding := true, running := s.running + 1 }
  | PoolAct.finishTask =>
    if s.holding then
      { s with
        holding := false
        counter := s.counter + 1
        running := s.running - 1
        waitOutcome :=
          if s.running - 1 = 0 ∧ s.waitOutcome = some false then some true
          else s.waitOutcome }
    else s
  | PoolAct.callWait =>
    if s.waitOutcome = none then
      if s.running > 0 then { s with waitOutcome := some false }
      else { s with waitOutcome := some true }
    else s

/-- Replay a schedule of pool steps. -/
def poolRun (init : PoolSim) (acts : List PoolAct) : PoolSim :=
  acts.foldl poolStep init

/-- Pool at rest right after construction: empty queue, idle worker, zero
counters, `wait()` not yet called. -/
def poolInit : PoolSim := ⟨0, false, 0, 0, none⟩

/-- `Gate::open`: set the boolean under the lock (and `notify_all`). -/
def Gate.openGate (_ : Bool) : Bool := true

/-- `Gate::close`: clear the boolean. -/
def Gate.closeGate (_ : Bool) : Bool := false

/-- `Gate::wait`: `while !*open { condvar.wait() }` — returns immediately
(leaving the state untouched) when the gate is open, else parks (`none`). -/
def Gate.wait (s : Bool) : Option Bool := if s then some s else none

/-- `i32wrap` is the identity on in-range values. -/
theorem i32wrap_eq_of_range (x : Int) (h₁ : i32min ≤ x) (h₂ : x ≤ i32max) :
    i32wrap x = x := by
  unfold i32wrap
  unfold i32min at h₁
  unfold i32max at h₂
  omega

/-- C1: on an empty buffer with no `end()` recorded, `Channel::get` reports
closed without blocking exactly when blocked-getters + 1 equals the
live-endpoint count; in particular a sole live endpoint (no other getter
blocked) gets closed immediately. -/
theorem channel_get_autoclose {T : Type} (s : ChannelState T)
    (hbuf : s.buffer = []) (hend : s.endCount = 0) :
    ((Channel.get s).1 = GetResult.closed ↔ s.waitCount + 1 = s.openCount)
    ∧ (s.openCount = 1 → s.waitCount = 0 → (Channel.get s).1 = GetResult.closed) := by
  obtain ⟨buf, ec, oc, wc⟩ := s
  simp only at hbuf hend
  subst hbuf
  subst hend
  constructor
  · by_cases h : wc + 1 = oc <;> simp [Channel.get, h]
  · intro h₁ h₂
    subst h₁
    subst h₂
    simp [Channel.get]

/-- C1 witness: a channel with one live endpoint, empty buffer, no `end()`
call and no blocked getter reports closed immediately. -/
theorem channel_get_autoclose_witness :
    (Channel.get (⟨[], 0, 1, 0⟩ : ChannelState Nat)).1 = GetResult.closed :=
  (channel_get_autoclose (⟨[], 0, 1, 0⟩ : ChannelState Nat) rfl rfl).2 rfl rfl

/-- A `get` on an empty buffer (closed or parked) consumes nothing. -/
theorem channel_run_get_nil {T : Type} (s : ChannelState T) (h : s.buffer = [])
    (got : List T) (rest : List (ChanAct T)) :
    Channel.run s got (ChanAct.get :: rest) = Channel.run s got rest := by
  obtain ⟨buf, ec, oc, wc⟩ := s
  simp only at h
  subst h
  by_cases h₁ : ec > 0
  · simp [Channel.run, Channel.get, h₁]
  · by_cases h₂ : wc + 1 = oc <;> simp [Channel.run, Channel.get, h₁, h₂]

/-- A `get` on a non-empty buffer pops the front item. -/
theorem channel_run_get_cons {T : Type} (s : ChannelState T) (x : T) (b : List T)
    (h : s.buffer = x :: b) (got : List T) (rest : List (ChanAct T)) :
    Channel.run s got (ChanAct.get :: rest)
      = Channel.run { s with buffer := b } (got ++ [x]) rest := by
  obtain ⟨buf, ec, oc, wc⟩ := s
  simp only at h
  subst h
  simp [Channel.run, Channel.get]

/-- Trace invariant: items received so far followed by the items still
buffered are exactly the prior contents plus the puts of the trace, in
order. -/
theorem channel_run_invariant {T : Type} (acts : List (ChanAct T)) :
    ∀ (s : ChannelState T) (got : List T),
      (Channel.run s got acts).2 ++ (Channel.run s got acts).1.buffer
        = got ++ s.buffer ++ ChanAct.puts acts := by
  induction acts with
  | nil => intro s got; simp [Channel.run, ChanAct.puts]
  | cons a rest ih =>
    intro s got
    cases a with
    | put x =>
      simp only [Channel.run, ChanAct.puts]
      rw [ih]
      simp [Channel.put]
    | get =>
      cases hb : s.buffer with
      | nil =>
        rw [channel_run_get_nil s hb, ih]
        simp [ChanAct.puts, hb]
      | cons x b =>
        rw [channel_run_get_cons s x b hb, ih]
        simp [ChanAct.puts, hb]

/-- Running only puts appends the items to the buffer in order. -/
theorem channel_run_puts {T : Type} (l : List T) :
    ∀ (s : ChannelState T) (got : List T),
      Channel.run s got (l.map ChanAct.put)
        = ({ s with buffer := s.buffer ++ l }, got) := by
  induction l with
  | nil => intro s got; simp [Channel.run]
  | cons x xs ih =>
    intro s got
    simp only [List.map, Channel.run]
    rw [ih]
    obtain ⟨buf, ec, oc, wc⟩ := s
    simp [Channel.put]

/-- Running one `get` per buffered item drains the buffer front to back. -/
theorem channel_run_drain {T : Type} (b : List T) :
    ∀ (s : ChannelState T) (got : List T), s.buffer = b →
      Channel.run s got (List.replicate b.length ChanAct.get)
        = ({ s with buffer := [] }, got ++ b) := by
  induction b with
  | nil =>
    intro s got h
    obtain ⟨buf, ec, oc, wc⟩ := s
    simp only at h
    subst h
    simp [Channel.run]
  | cons x xs ih =>
    intro s got h
    simp only [List.length_cons, List.replicate]
    rw [channel_run_get_cons s x xs h]
    rw [ih { s with buffer := xs } (got ++ [x]) rfl]
    obtain ⟨buf, ec, oc, wc⟩ := s
    simp

/-- Traces compose: running a concatenation is running the pieces in turn. -/
theorem channel_run_append {T : Type} (a : List (ChanAct T)) :
    ∀ (b : List (ChanAct T)) (s : ChannelState T) (got : List T),
      Channel.run s got (a ++ b)
        = Channel.run (Channel.run s got a).1 (Channel.run s got a).2 b := by
  induction a with
  | nil => intro b s got; simp [Channel.run]
  | cons act rest ih =>
    intro b s got
    cases act with
    | put x =>
      simp only [List.cons_append, Channel.run]
      exact ih b (Channel.put s x) got
    | get =>
      cases hb : s.buffer with
      | nil =>
        rw [List.cons_append, channel_run_get_nil s hb, channel_run_get_nil s hb, ih]
      | cons x bs =>
        rw [List.cons_append, channel_run_get_cons s x bs hb,
          channel_run_get_cons s x bs hb, ih]

/-- C2: over any trace of puts and gets on a fresh channel, the items the
`get` calls returned followed by the items still buffered equal the items put,
in put order — so gets observe FIFO order and each put item is returned by at
most one get; and a trace that puts `l` and then gets `l.length` times
returns exactly `l`, each item by exactly one get. -/
theorem channel_fifo {T : Type} (acts : List (ChanAct T)) (l : List T) :
    (Channel.run Channel.new [] acts).2 ++ (Channel.run Channel.new [] acts).1.buffer
      = ChanAct.puts acts
    ∧ (Channel.run Channel.new []
        (l.map ChanAct.put ++ List.replicate l.length ChanAct.get)).2 = l := by
  constructor
  · simpa [Channel.new] using channel_run_invariant acts Channel.new []
  · rw [channel_run_append, channel_run_puts]
    rw [channel_run_drain l _ _ (by simp [Channel.new])]
    simp

/-- A non-panicking latent operation never changes an already-present
value. -/
theorem latent_applyOp_preserves_value {T : Type} (s : LatentState T) (op : LatentOp T)
    (s₁ : LatentState T) (hsome : (s.value).isSome = true)
    (h : Latent.applyOp s op = some s₁) : s₁.value = s.value := by
  cases op with
  | setV v => simp [Latent.applyOp, Latent.set, hsome] at h
  | addEv t i =>
    simp only [Latent.applyOp, Option.some.injEq] at h
    subst h
    unfold Latent.addEvent
    split <;> rfl
  | removeEv i =>
    simp only [Latent.applyOp, Option.some.injEq] at h
    subst h
    rfl

/-- A non-panicking trace of latent operations never changes an
already-present value. -/
theorem latent_runOps_preserves_value {T : Type} (ops : List (LatentOp T)) :
    ∀ (s s₂ : LatentState T), (s.value).isSome = true →
      Latent.runOps s ops = some s₂ → s₂.value = s.value := by
  induction ops with
  | nil =>
    intro s s₂ _ h
    simp [Latent.runOps] at h
    subst h
    rfl
  | cons op rest ih =>
    intro s s₂ hsome h
    simp only [Latent.runOps] at h
    cases hap : Latent.applyOp s op with
    | none => rw [hap] at h; simp at h
    | some s₁ =>
      rw [hap] at h
      have hval := latent_applyOp_preserves_value s op s₁ hsome hap
      have h₂ := ih s₁ s₂ (by rw [hval]; exact hsome) h
      rw [h₂, hval]

/-- C3: a `set` on a latent whose value is already present panics (the
`assert!` fires) rather than being silently ignored; a successful `set`
requires the value to have been absent and makes it present; and along any
non-panicking trace an already-present value never changes, so the stored
value transitions absent to present exactly once. -/
theorem latent_single_assignment {T : Type} (s : LatentState T) (v : T) :
    ((s.value).isSome = true → Latent.set s v = none)
    ∧ (∀ eff : SetEffect T, Latent.set s v = some eff →
        s.value = none ∧ eff.state.value = some v)
    ∧ (∀ (ops : List (LatentOp T)) (s₂ : LatentState T),
        (s.value).isSome = true → Latent.runOps s ops = some s₂ →
        s₂.value = s.value) := by
  refine ⟨?_, ?_, ?_⟩
  · intro h
    simp [Latent.set, h]
  · intro eff h
    unfold Latent.set at h
    by_cases hv : (s.value).isSome
    · rw [if_pos hv] at h
      exact absurd h (by simp)
    · rw [if_neg hv] at h
      have heff := Option.some.inj h
      refine ⟨Option.not_isSome_iff_eq_none.mp hv, ?_⟩
      rw [← heff]
  · intro ops s₂ hsome h
    exact latent_runOps_preserves_value ops s s₂ hsome h

/-- C3 witness: setting an already-set latent panics. -/
theorem latent_single_assignment_witness :
    Latent.set (⟨some 5, []⟩ : LatentState Nat) 7 = none :=
  (latent_single_assignment (⟨some 5, []⟩ : LatentState Nat) 7).1 rfl

/-- C4: a successful `set` stores the value, notifies all blocking waiters,
fires every registered select event exactly once (the fired list is the whole
registration map, in order) and leaves the registration map empty; and
`add_event` on an already-resolved latent fires the event immediately without
storing it, while on an unresolved latent it stores the event keyed by the
listener id and fires nothing. -/
theorem latent_set_fires_all_events {T : Type} (s : LatentState T) (v : T)
    (tag lid : Nat) :
    (s.value = none →
      Latent.set s v = some ⟨⟨some v, []⟩, true, s.events.map (fun p => p.2)⟩)
    ∧ ((s.value).isSome = true → Latent.addEvent s tag lid = (s, [tag]))
    ∧ (s.value = none →
      Latent.addEvent s tag lid
        = ({ s with events := insertEvent s.events lid tag }, [])) := by
  refine ⟨?_, ?_, ?_⟩
  · intro h
    simp [Latent.set, h]
  · intro h
    cases hv : s.value with
    | none => rw [hv] at h; simp at h
    | some w => simp [Latent.addEvent, hv]
  · intro h
    simp [Latent.addEvent, h]

/-- C4 witness: a set with two registered events fires exactly those two tags
and clears the map; an `add_event` on a resolved latent fires immediately. -/
theorem latent_set_fires_all_events_witness :
    Latent.set (⟨none, [(0, 10), (1, 11)]⟩ : LatentState Nat) 5
      = some ⟨⟨some 5, []⟩, true, [10, 11]⟩
    ∧ Latent.addEvent (⟨some 5, []⟩ : LatentState Nat) 7 3
      = (⟨some 5, []⟩, [7]) :=
  ⟨(latent_set_fires_all_events (⟨none, [(0, 10), (1, 11)]⟩ : LatentState Nat) 5 0 0).1 rfl,
   (latent_set_fires_all_events (⟨some 5, []⟩ : LatentState Nat) 5 7 3).2.1 rfl⟩

/-- C5: `wait_one` pops and returns the front queued value when the queue is
non-empty; on an empty queue (with the pending-count invariant `0 ≤ count`)
it returns `None` immediately if and only if the pending-event count is zero;
otherwise it parks, and a pushed value is what a woken call pops. -/
theorem listener_wait_one_spec {T : Type} (s : ListenerState T) :
    (∀ (x : T) (rest : List T), s.queue = x :: rest →
      SharedData.waitOne s = (WaitOneResult.value x, { s with queue := rest }))
    ∧ (s.queue = [] → 0 ≤ s.eventCount →
      ((SharedData.waitOne s).1 = WaitOneResult.nothing ↔ s.eventCount = 0))
    ∧ (s.queue = [] → 1 ≤ s.eventCount →
      (SharedData.waitOne s).1 = WaitOneResult.blocked
      ∧ ∀ x : T, (SharedData.waitOne (SharedData.trigger s x)).1
          = WaitOneResult.value x) := by
  obtain ⟨q, c⟩ := s
  refine ⟨?_, ?_, ?_⟩
  · intro x rest h
    simp only at h
    subst h
    simp [SharedData.waitOne]
  · intro hq hc
    simp only at hq hc
    subst hq
    by_cases h : c < 1
    · simp [SharedData.waitOne, h]
      omega
    · simp [SharedData.waitOne, h]
      omega
  · intro hq hc
    simp only at hq hc
    subst hq
    have h : ¬ c < 1 := by omega
    refine ⟨by simp [SharedData.waitOne, h], ?_⟩
    intro x
    simp [SharedData.waitOne, SharedData.trigger]

/-- C5 witness: a queued value is returned front-first; with nothing queued
and nothing pending the call reports `None`; with a pending event it parks. -/
theorem listener_wait_one_spec_witness :
    SharedData.waitOne (⟨[7, 8], 2⟩ : ListenerState Nat)
      = (WaitOneResult.value 7, ⟨[8], 2⟩)
    ∧ ((SharedData.waitOne (⟨[], 0⟩ : ListenerState Nat)).1
        = WaitOneResult.nothing ↔ (0 : Int) = 0)
    ∧ (SharedData.waitOne (⟨[], 2⟩ : ListenerState Nat)).1
        = WaitOneResult.blocked :=
  ⟨(listener_wait_one_spec (⟨[7, 8], 2⟩ : ListenerState Nat)).1 7 [8] rfl,
   (listener_wait_one_spec (⟨[], 0⟩ : ListenerState Nat)).2.1 rfl (by decide),
   ((listener_wait_one_spec (⟨[], 2⟩ : ListenerState Nat)).2.2 rfl (by decide)).1⟩

/-- C6 counterexample: `fill` on a pool constructed with 0 workers still
submits the final unconditional `put(task)`, so the returned list has length
1, not 0 — the claim fails at N = 0. -/
theorem threadpool_fill_zero_counterexample :
    (ThreadPool.fill 0 (37 : Nat)).length = 1
    ∧ ¬ (ThreadPool.fill 0 (37 : Nat)).length = 0 := by decide

/-- C6 (amended): for every pool with N ≥ 1 workers, `fill(task)` submits
exactly one clone of the task per worker and the returned list has length N;
at N = 0 one submission is still made (see the counterexample). -/
theorem threadpool_fill_length {α : Type} (n : Nat) (task : α) (h : 1 ≤ n) :
    (ThreadPool.fill n task).length = n
    ∧ ∀ x ∈ ThreadPool.fill n task, x = task := by
  constructor
  · simp only [ThreadPool.fill, List.length_append, List.length_map,
      List.length_range, List.length_singleton]
    omega
  · intro x hx
    simp only [ThreadPool.fill, List.mem_append, List.mem_map,
      List.mem_singleton] at hx
    rcases hx with ⟨i, _, rfl⟩ | rfl <;> rfl

/-- C6 witness: a 3-worker pool gets exactly 3 futures from `fill`. -/
theorem threadpool_fill_length_witness :
    (ThreadPool.fill 3 (5 : Nat)).length = 3 :=
  (threadpool_fill_length 3 (5 : Nat) (by decide)).1

/-- C7: in the specified select scenario — three latents, the one at position
1 (the second future) resolved to 27 before registration, the first and third
resolving to 42 and 39 afterwards in that order — the pre-resolved latent
fires synchronously during `add_event`, so `wait_all` returns the positions in
firing order `[1, 0, 2]`: second future first, then first, then third, which
is `[2, 1, 3]` in the specification's 1-based numbering. -/
theorem selector_wait_all_firing_order :
    SharedData.waitAllNB 4 selectScenario.listener = some [1, 0, 2]
    ∧ (SharedData.waitAllNB 4 selectScenario.listener).map
        (List.map (fun i => i + 1)) = some [2, 1, 3]
    ∧ selectScenario.latents.map (fun l => l.value)
        = [some 42, some 27, some 39] := by decide

/-- C8 (exhibit of the known check-then-wait race): submit M = 1 task that
increments the shared counter, then call `pool.wait()` before the worker has
dequeued it — `running_count.get()` is still 0, so `wait()` returns
immediately while the task is still queued and the counter is observed at 0,
not at M; running the task afterwards brings the counter to 1, so the early
return really under-waited. -/
theorem pool_wait_race_trace :
    ((poolRun poolInit [PoolAct.putTask, PoolAct.callWait]).waitOutcome = some true
      ∧ (poolRun poolInit [PoolAct.putTask, PoolAct.callWait]).counter = 0
      ∧ (poolRun poolInit [PoolAct.putTask, PoolAct.callWait]).queued = 1)
    ∧ (poolRun poolInit
        [PoolAct.putTask, PoolAct.callWait, PoolAct.dequeueTask,
          PoolAct.finishTask]).counter = 1 := by decide

/-- C9: a `Gate` opened any positive number of times is open, and `wait()` on
an open gate returns immediately without parking and leaves the gate state
untouched (level-triggered). -/
theorem gate_wait_level_triggered (s₀ : Bool) (n : Nat) (h : 1 ≤ n) :
    Gate.wait (Gate.openGate^[n] s₀) = some true
    ∧ ∀ s : Bool, s = true → Gate.wait s = some s := by
  constructor
  · obtain ⟨m, rfl⟩ : ∃ m, n = m + 1 := ⟨n - 1, by omega⟩
    rw [Function.iterate_succ_apply']
    rfl
  · intro s hs
    subst hs
    rfl

/-- C9 witness: after three `open()` calls, `wait()` returns at once. -/
theorem gate_wait_level_triggered_witness :
    Gate.wait (Gate.openGate^[3] false) = some true :=
  (gate_wait_level_triggered false 3 (by decide)).1

/-- C10: `add`, `sub`, `increment` and `decrement` all return the value held
before the modification, while a subsequent `get` observes the modified value
(in i32 arithmetic, exactly `v + d` / `v - d` / `v + 1` / `v - 1` whenever
that stays in range); consequently the channel endpoint-release path, which
computes `open_count.decrement() - 1`, obtains exactly the post-decrement
live-endpoint count and wakes the getters iff the blocked count equals it. -/
theorem atomic_fetch_then_modify (v d : Int) :
    ((AtomicInteger.mk v).add d).1 = v
    ∧ ((AtomicInteger.mk v).sub d).1 = v
    ∧ ((AtomicInteger.mk v).increment).1 = v
    ∧ ((AtomicInteger.mk v).decrement).1 = v
    ∧ (i32min ≤ v + d → v + d ≤ i32max →
        (((AtomicInteger.mk v).add d).2).get = v + d)
    ∧ (i32min ≤ v - d → v - d ≤ i32max →
        (((AtomicInteger.mk v).sub d).2).get = v - d)
    ∧ (i32min ≤ v + 1 → v + 1 ≤ i32max →
        (((AtomicInteger.mk v).increment).2).get = v + 1)
    ∧ (i32min ≤ v - 1 → v - 1 ≤ i32max →
        (((AtomicInteger.mk v).decrement).2).get = v - 1)
    ∧ (∀ s : ChannelState Nat, s.openCount = v →
        i32min ≤ v - 1 → v - 1 ≤ i32max →
        (Channel.dropHandle s).1.openCount = v - 1
        ∧ ((Channel.dropHandle s).2 = true ↔ s.waitCount = v - 1)) := by
  refine ⟨rfl, rfl, rfl, rfl, ?_, ?_, ?_, ?_, ?_⟩
  · intro h₁ h₂
    exact i32wrap_eq_of_range _ h₁ h₂
  · intro h₁ h₂
    exact i32wrap_eq_of_range _ h₁ h₂
  · intro h₁ h₂
    exact i32wrap_eq_of_range _ h₁ h₂
  · intro h₁ h₂
    exact i32wrap_eq_of_range _ h₁ h₂
  · intro s hs h₁ h₂
    have hw : i32wrap (s.openCount - 1) = v - 1 := by
      rw [hs]
      exact i32wrap_eq_of_range _ h₁ h₂
    constructor
    · show i32wrap (s.openCount - 1) = v - 1
      exact hw
    · show decide (s.waitCount = i32wrap (s.openCount - 1)) = true ↔ s.waitCount = v - 1
      rw [hw]
      exact decide_eq_true_iff

/-- C10 witness: at value 10, `add 3` returns 10 and stores 13; dropping one
of 10 endpoints with 9 blocked getters leaves a live count of 9 and wakes the
getters. -/
theorem atomic_fetch_then_modify_witness :
    ((AtomicInteger.mk 10).add 3).1 = 10
    ∧ (((AtomicInteger.mk 10).add 3).2).get = 13
    ∧ (Channel.dropHandle (⟨[], 0, 10, 9⟩ : ChannelState Nat)).1.openCount = 9
    ∧ (Channel.dropHandle (⟨[], 0, 10, 9⟩ : ChannelState Nat)).2 = true :=
  ⟨(atomic_fetch_then_modify 10 3).1,
   (atomic_fetch_then_modify 10 3).2.2.2.2.1 (by decide) (by decide),
   ((atomic_fetch_then_modify 10 3).2.2.2.2.2.2.2.2
      ⟨[], 0, 10, 9⟩ rfl (by decide) (by decide)).1,
   (((atomic_fetch_then_modify 10 3).2.2.2.2.2.2.2.2
      ⟨[], 0, 10, 9⟩ rfl (by decide) (by decide)).2).mpr (by decide)⟩

end InkRs
